import Mathlib

/-!
# Verification of `Optimization/MultidimensionalBisection/MultidimensionalBisection2.py`

Shallow embedding of the trust-region bisection optimizer and of the
module-level multi-restart driver of `MultidimensionalBisection2.py`.

Modelling conventions:

* Finite float values are modelled as exact rationals (`ℚ`); points are
  `Fin n → ℚ`.  The infinities the script creates with `np.inf`
  (the initial `y` vector, `fy`, `fx_best`) are modelled with `WithTop ℚ`,
  whose order agrees with IEEE comparisons against `+inf` on finite values.
* The guard of the outer `while` (line 103 of the source,
  `np.max(np.abs((x/x_prev)-1)) > epsilon`) divides componentwise and can
  produce `nan` (0/0) or `±inf` (x/0); those IEEE values and their
  propagation through `-`, `abs`, `np.max` and `>` are modelled exactly by
  the `NpVal` type below.  No rounding is modelled anywhere: this is the
  exact-real-arithmetic idealization of the float program.
* The objective `f` and its gradient `df` are module-level functions in the
  script; the embedding takes them as parameters.
* `np.random.*` draws are ambient in the script; the embedding makes each
  consumed draw an explicit input stream (`jit` for the per-outer-iteration
  `np.random.randn` jitter of line 147, `stream` for the restart loop's
  `np.random.uniform` draws of lines 155 and 160).
* The two unbounded `while` loops are embedded with explicit fuel; running
  out of fuel returns the current state (an artifact of the embedding — the
  program would keep looping).  Statements about "every step" are made by
  iterating the loop body directly, which coincides with the program's
  execution for as long as the loop actually runs.
* The source's `d(x,y)` is `np.sqrt(np.sum((x-y)**2))`.  The inner-loop
  guard `d(x,y) > epsilon` is embedded as `epsilon^2 < Σ (x-y)^2` (squared
  form), which is equivalent for `epsilon ≥ 0`; every epsilon the script
  passes is positive (`1e-10` at line 161, and all concrete instances used
  here).  The value `trust_range = d(x, x_prev + .1*epsilon*randn)` of
  line 147 needs an actual square root; concrete runs instantiate the
  embedding's `sqrtFn` parameter with Mathlib's `Rat.sqrt`, which is the
  exact square root on every perfect-square argument (all arguments arising
  in the concrete runs studied here are perfect squares).
* The counters `n`, `m` (lines 98-99, 104, 114) and the post-selection
  `fx` reassignment of line 146 are dead in the source (never read after
  being written; the function returns only `x` at line 153) and are omitted.
-/

namespace MDB2

/-- IEEE-style extended value for the numpy expression in the outer-loop
guard: a finite rational, `+inf`, `-inf`, or `nan`. -/
inductive NpVal where
  | fin (q : ℚ)
  | pinf
  | ninf
  | nan
deriving DecidableEq

/-- Componentwise division `x / x_prev` as numpy computes it: `0/0 = nan`,
`a/0 = ±inf` by the sign of `a` (the denominator is `+0`). -/
def npDiv : NpVal → NpVal → NpVal
  | .fin a, .fin b =>
      if b = 0 then (if a = 0 then .nan else if 0 < a then .pinf else .ninf)
      else .fin (a / b)
  | .nan, _ => .nan
  | _, .nan => .nan
  | .pinf, .fin b => if 0 ≤ b then .pinf else .ninf
  | .ninf, .fin b => if 0 ≤ b then .ninf else .pinf
  | .fin _, .pinf => .fin 0
  | .fin _, .ninf => .fin 0
  | .pinf, .pinf => .nan
  | .pinf, .ninf => .nan
  | .ninf, .pinf => .nan
  | .ninf, .ninf => .nan

/-- Subtraction of a finite value (the `- 1` of the guard), with IEEE
propagation of `nan` and infinities. -/
def npSub : NpVal → NpVal → NpVal
  | .fin a, .fin b => .fin (a - b)
  | .nan, _ => .nan
  | _, .nan => .nan
  | .pinf, .fin _ => .pinf
  | .ninf, .fin _ => .ninf
  | .fin _, .pinf => .ninf
  | .fin _, .ninf => .pinf
  | .pinf, .pinf => .nan
  | .pinf, .ninf => .pinf
  | .ninf, .pinf => .ninf
  | .ninf, .ninf => .nan

/-- `np.abs`, propagating `nan`. -/
def npAbs : NpVal → NpVal
  | .fin a => .fin |a|
  | .nan => .nan
  | .pinf => .pinf
  | .ninf => .pinf

/-- Binary maximum as `np.max`'s reduction performs it: `nan` propagates. -/
def npMax : NpVal → NpVal → NpVal
  | .nan, _ => .nan
  | _, .nan => .nan
  | .pinf, _ => .pinf
  | _, .pinf => .pinf
  | .ninf, b => b
  | a, .ninf => a
  | .fin a, .fin b => .fin (max a b)

/-- `np.max` over an array, folded from `-inf` (numpy's reduction identity
for `maximum`); any `nan` element makes the result `nan`. -/
def npMaxList (l : List NpVal) : NpVal := l.foldr npMax .ninf

/-- IEEE `>`: any comparison with `nan` is false. -/
def npGtB : NpVal → NpVal → Bool
  | .nan, _ => false
  | _, .nan => false
  | .pinf, .pinf => false
  | .pinf, _ => true
  | .ninf, _ => false
  | .fin _, .pinf => false
  | .fin _, .ninf => true
  | .fin a, .fin b => decide (b < a)

/-- The outer-loop guard of line 103:
`np.max(np.abs((x/x_prev)-1)) > epsilon`. -/
def npGuard {n : ℕ} (x x_prev : Fin n → ℚ) (eps : ℚ) : Bool :=
  npGtB
    (npMaxList (List.ofFn fun i =>
      npAbs (npSub (npDiv (.fin (x i)) (.fin (x_prev i))) (.fin 1))))
    (.fin eps)

/-- The inner-loop scratch state of one outer iteration (lines 105-139):
the iterate `x`, the previous point `y` and value `fy` (initially the
`np.inf` vector and `np.inf`), the best point/value seen this outer
iteration (`x_best` starts unassigned — reading it before the first
assignment would be a Python `NameError` — and `fx_best` starts `np.inf`),
and the live box `x_low`, `x_high`. -/
structure InnerState (n : ℕ) where
  x : Fin n → ℚ
  y : Fin n → WithTop ℚ
  fy : WithTop ℚ
  x_best : Option (Fin n → ℚ)
  fx_best : WithTop ℚ
  x_low : Fin n → ℚ
  x_high : Fin n → ℚ

/-- Lines 105-110: the state at the start of an outer iteration with
iterate `x` and trust-region radius `r`:
`x_high = x + r*ones`, `x_low = x - r*ones`, `y = inf*ones`, `fy = inf`,
`fx_best = inf`. -/
def initInner {n : ℕ} (x : Fin n → ℚ) (r : ℚ) : InnerState n where
  x := x
  y := fun _ => ⊤
  fy := ⊤
  x_best := none
  fx_best := ⊤
  x_low := fun i => x i - r
  x_high := fun i => x i + r

/-- The squared distance `Σ (x-y)^2` with `y` possibly infinite (the square
of an infinite difference is `+inf`, and `+inf` absorbs the sum), used for
the inner-loop guard. -/
def edist2 {n : ℕ} (x : Fin n → ℚ) (y : Fin n → WithTop ℚ) : WithTop ℚ :=
  ∑ i, (match y i with
        | ⊤ => (⊤ : WithTop ℚ)
        | (q : ℚ) => ((x i - q) ^ 2 : ℚ))

/-- The inner-loop guard of line 111, `d(x,y) > epsilon`, in the equivalent
squared form `epsilon^2 < Σ (x-y)^2` (see the header: equivalent to the
source's `sqrt`-based test for `epsilon ≥ 0`, and every epsilon in use is
positive). -/
def innerGuard {n : ℕ} (eps : ℚ) (s : InnerState n) : Bool :=
  decide (((eps ^ 2 : ℚ) : WithTop ℚ) < edist2 s.x s.y)

/-- The assertion of line 113, `assert np.all(x_high-x_low>0)`. -/
def boxAssert {n : ℕ} (s : InnerState n) : Bool :=
  decide (∀ i, 0 < s.x_high i - s.x_low i)

/-- The new lower bounds after the narrowing of lines 120-132: if
`fx <= fy`, dimension `i` keeps `x_low[i]` when `dfx[i] > 0` and becomes
`x[i]` otherwise; if `fx > fy`, the test is `x[i] > y[i]` instead. -/
def narrowLow {n : ℕ} (f : (Fin n → ℚ) → ℚ) (df : (Fin n → ℚ) → Fin n → ℚ)
    (s : InnerState n) : Fin n → ℚ := fun i =>
  if ((f s.x : ℚ) : WithTop ℚ) ≤ s.fy then
    (if 0 < df s.x i then s.x_low i else s.x i)
  else
    (if s.y i < ((s.x i : ℚ) : WithTop ℚ) then s.x_low i else s.x i)

/-- The new upper bounds after the narrowing of lines 120-132 (the branch
that does not move `x_low[i]` sets `x_high[i] = x[i]`). -/
def narrowHigh {n : ℕ} (f : (Fin n → ℚ) → ℚ) (df : (Fin n → ℚ) → Fin n → ℚ)
    (s : InnerState n) : Fin n → ℚ := fun i =>
  if ((f s.x : ℚ) : WithTop ℚ) ≤ s.fy then
    (if 0 < df s.x i then s.x i else s.x_high i)
  else
    (if s.y i < ((s.x i : ℚ) : WithTop ℚ) then s.x i else s.x_high i)

/-- One pass of the inner-loop body after the assertion (lines 116-139):
evaluate `fx = f(x)` and `dfx = df(x)`; narrow the box (`narrowLow`,
`narrowHigh`); record the best point when `fx < fx_best` (lines 134-136);
then `y = x`, `fy = fx`, `x = (x_high + x_low)/2` (lines 137-139). -/
def innerBodyCore {n : ℕ} (f : (Fin n → ℚ) → ℚ) (df : (Fin n → ℚ) → Fin n → ℚ)
    (s : InnerState n) : InnerState n where
  x := fun i => (narrowHigh f df s i + narrowLow f df s i) / 2
  y := fun i => ((s.x i : ℚ) : WithTop ℚ)
  fy := ((f s.x : ℚ) : WithTop ℚ)
  x_best := if ((f s.x : ℚ) : WithTop ℚ) < s.fx_best then some s.x else s.x_best
  fx_best := if ((f s.x : ℚ) : WithTop ℚ) < s.fx_best then ((f s.x : ℚ) : WithTop ℚ) else s.fx_best
  x_low := narrowLow f df s
  x_high := narrowHigh f df s

/-- The inner-loop body including the assertion of line 113: a failed
assertion is the Python `AssertionError`, which aborts the whole
`MultiDimensionalBisection` call (there is no handler anywhere in the
file), modelled as `Except.error`. -/
def innerBody {n : ℕ} (f : (Fin n → ℚ) → ℚ) (df : (Fin n → ℚ) → Fin n → ℚ)
    (s : InnerState n) : Except Unit (InnerState n) :=
  if boxAssert s then .ok (innerBodyCore f df s) else .error ()

/-- The inner `while` loop (lines 111-139) with explicit fuel: while
`d(x,y) > epsilon`, run the body (whose assertion may abort the run). -/
def innerRun {n : ℕ} (f : (Fin n → ℚ) → ℚ) (df : (Fin n → ℚ) → Fin n → ℚ)
    (eps : ℚ) : ℕ → InnerState n → Except Unit (InnerState n)
  | 0, s => .ok s
  | fuel + 1, s =>
      if innerGuard eps s then (innerBody f df s).bind (innerRun f df eps fuel)
      else .ok s

/-- `np.argmin([a, b, c])`: the index of the minimum, first occurrence on
ties (numpy returns the first occurrence). -/
def argmin3 (a b c : WithTop ℚ) : ℕ :=
  if a ≤ b then (if a ≤ c then 0 else 2) else (if b ≤ c then 1 else 2)

/-- Lines 141-145: after the inner loop exits, evaluate `f_low = f(x_low)`
and `f_high = f(x_high)`, take `a = np.argmin([f_low, f_high, fx_best])`
and select `x = [x_low, x_high, x_best][a]`.  No box check precedes these
two evaluations.  When `a = 2` the source reads `x_best`, which is a
`NameError` if the inner loop never assigned it; after at least one inner
iteration it is always assigned (`best_assigned` below), so the `getD`
default is never used on an actual run. -/
def selectNext {n : ℕ} (f : (Fin n → ℚ) → ℚ) (s : InnerState n) : Fin n → ℚ :=
  let a := argmin3 ((f s.x_low : ℚ) : WithTop ℚ) ((f s.x_high : ℚ) : WithTop ℚ) s.fx_best
  if a = 0 then s.x_low else if a = 1 then s.x_high else s.x_best.getD s.x

/-- Line 147: the next trust-region radius
`d(x, x_prev + (.1*epsilon)*randn)`, with `x` the newly selected iterate,
`jv` the ambient `np.random.randn(len(x))` draw, and the square root of the
rational sum of squares taken by `sqrtFn`. -/
def nextRadius {n : ℕ} (sqrtFn : ℚ → ℚ) (eps : ℚ) (xNew x_prev jv : Fin n → ℚ) : ℚ :=
  sqrtFn (∑ i, (xNew i - (x_prev i + eps / 10 * jv i)) ^ 2)

/-- The outer-loop state: the iterate `x`, the previous outer iterate
`x_prev` (compared by the guard), the trust-region radius, and the cursor
into the ambient jitter stream. -/
structure OuterSt (n : ℕ) where
  x : Fin n → ℚ
  x_prev : Fin n → ℚ
  r : ℚ
  j : ℕ

/-- One outer-loop iteration (lines 104-147): set `x_prev = x`, build the
box and inner state, run the inner loop (`innerFuel` fuel; an assertion
failure aborts), select the next iterate from `x_low`, `x_high`, `x_best`,
and recompute the trust-region radius from the jitter draw `jit st.j`. -/
def outerBody {n : ℕ} (f : (Fin n → ℚ) → ℚ) (df : (Fin n → ℚ) → Fin n → ℚ)
    (sqrtFn : ℚ → ℚ) (jit : ℕ → Fin n → ℚ) (eps : ℚ) (innerFuel : ℕ)
    (st : OuterSt n) : Except Unit (OuterSt n) :=
  (innerRun f df eps innerFuel (initInner st.x st.r)).map fun s =>
    let xNew := selectNext f s
    { x := xNew
      x_prev := st.x
      r := nextRadius sqrtFn eps xNew st.x (jit st.j)
      j := st.j + 1 }

/-- The outer `while` loop (line 103) with explicit fuel: while
`np.max(np.abs((x/x_prev)-1)) > epsilon`, run the body.  There is no
iteration counter in the guard: the source's only exits are this guard
turning false or an uncaught `AssertionError`. -/
def outerRunE {n : ℕ} (f : (Fin n → ℚ) → ℚ) (df : (Fin n → ℚ) → Fin n → ℚ)
    (sqrtFn : ℚ → ℚ) (jit : ℕ → Fin n → ℚ) (eps : ℚ) (innerFuel : ℕ) :
    ℕ → OuterSt n → Except Unit (OuterSt n)
  | 0, st => .ok st
  | fuel + 1, st =>
      if npGuard st.x st.x_prev eps then
        (outerBody f df sqrtFn jit eps innerFuel st).bind
          (outerRunE f df sqrtFn jit eps innerFuel fuel)
      else .ok st

/-- Lines 98-100: the state on entry of `MultiDimensionalBisection`, with
`x_prev = 10*x`. -/
def initOuter {n : ℕ} (x : Fin n → ℚ) (r : ℚ) : OuterSt n where
  x := x
  x_prev := fun i => 10 * x i
  r := r
  j := 0

/-- `MultiDimensionalBisection(x, trust_range, epsilon)` (lines 97-153):
run the outer loop from the entry state and return the final `x` (the
function returns nothing else — no convergence flag, no best-so-far
record beyond `x` itself). -/
def MultiDimensionalBisection {n : ℕ} (f : (Fin n → ℚ) → ℚ)
    (df : (Fin n → ℚ) → Fin n → ℚ) (sqrtFn : ℚ → ℚ) (jit : ℕ → Fin n → ℚ)
    (outerFuel innerFuel : ℕ) (x : Fin n → ℚ) (trust_range eps : ℚ) :
    Except Unit (Fin n → ℚ) :=
  (outerRunE f df sqrtFn jit eps innerFuel outerFuel (initOuter x trust_range)).map (·.x)

/-- The outer-loop body iterated `k` times from the entry state, without
consulting the guard (errors still abort): for as long as the guard in
fact stays true — which is what the theorems below establish on the C4
input — this is exactly the program's execution. -/
def outerIterE {n : ℕ} (f : (Fin n → ℚ) → ℚ) (df : (Fin n → ℚ) → Fin n → ℚ)
    (sqrtFn : ℚ → ℚ) (jit : ℕ → Fin n → ℚ) (eps : ℚ) (innerFuel : ℕ)
    (st0 : OuterSt n) : ℕ → Except Unit (OuterSt n)
  | 0 => .ok st0
  | k + 1 => (outerIterE f df sqrtFn jit eps innerFuel st0 k).bind
      (outerBody f df sqrtFn jit eps innerFuel)

/-- Lines 162-163 of the restart loop: replace the incumbent best point by
the new restart's result exactly when `f(x) < f(x_best)`. -/
def bestUpdate {n : ℕ} (f : (Fin n → ℚ) → ℚ) (x_best x : Fin n → ℚ) : Fin n → ℚ :=
  if f x < f x_best then x else x_best

/-- The global best after `k` completed restarts: `results i` is the point
the `i`-th completed restart returned (in the script,
`MultiDimensionalBisection` applied to the `i`-th `np.random.uniform`
draw), folded through `bestUpdate` from the initial random point. -/
def bestAfter {n : ℕ} (f : (Fin n → ℚ) → ℚ) (results : ℕ → Fin n → ℚ)
    (x0 : Fin n → ℚ) : ℕ → Fin n → ℚ
  | 0 => x0
  | k + 1 => bestUpdate f (bestAfter f results x0 k) (results k)

/-- The module-level restart loop, lines 158-164, with fuel: while
`f(x_best) > 1e-3`, draw `x = stream i`, run the bisector (`run`, which in
the script is `MultiDimensionalBisection(x, 2, 1e-10)` and may raise),
and keep the better point.  There is no `try`/`except` anywhere in the
file: an error from `run` propagates through `bind` and terminates the
whole loop. -/
def restartAux {n : ℕ} (f : (Fin n → ℚ) → ℚ)
    (run : (Fin n → ℚ) → Except Unit (Fin n → ℚ)) (stream : ℕ → Fin n → ℚ) :
    ℕ → ℕ → (Fin n → ℚ) → Except Unit (Fin n → ℚ)
  | 0, _, x_best => .ok x_best
  | fuel + 1, i, x_best =>
      if 1 / 1000 < f x_best then
        (run (stream i)).bind fun x =>
          restartAux f run stream fuel (i + 1) (bestUpdate f x_best x)
      else .ok x_best

/-- Lines 155-164: `x_best` starts as the draw `stream 0`, then the restart
loop runs with draws `stream 1`, `stream 2`, …. -/
def restartLoop {n : ℕ} (f : (Fin n → ℚ) → ℚ)
    (run : (Fin n → ℚ) → Except Unit (Fin n → ℚ)) (stream : ℕ → Fin n → ℚ)
    (fuel : ℕ) : Except Unit (Fin n → ℚ) :=
  restartAux f run stream fuel 1 (stream 0)

/-! ### Concrete instances used by witnesses and counterexamples -/

/-- A simple linear objective for witnesses: `f(v) = v 0`. -/
def wf : (Fin 1 → ℚ) → ℚ := fun v => v 0

/-- Its constant gradient stand-in for witnesses. -/
def wdf : (Fin 1 → ℚ) → Fin 1 → ℚ := fun _ _ => 1

/-- A concrete inner state for the C1 witness. -/
def c1s : InnerState 1 :=
  ⟨fun _ => 2, fun _ => ((1 : ℚ) : WithTop ℚ), ((5 : ℚ) : WithTop ℚ), none, ⊤,
    fun _ => 0, fun _ => 4⟩

/-- The recorded best point of the C2 witness state. -/
def c2b : Fin 1 → ℚ := fun _ => 3

/-- A concrete inner-loop exit state for the C2 witness. -/
def c2s : InnerState 1 :=
  ⟨fun _ => 2, fun _ => ((2 : ℚ) : WithTop ℚ), ((2 : ℚ) : WithTop ℚ), some c2b,
    ((3 : ℚ) : WithTop ℚ), fun _ => 1, fun _ => 2⟩

/-- A concrete start point for the C3 witness. -/
def c3x0 : Fin 1 → ℚ := fun _ => 0

/-- The objective of the C4 nontermination run: `f(x) = |x|` in one
dimension. -/
def c4f : (Fin 1 → ℚ) → ℚ := fun v => |v 0|

/-- Its (sub)gradient: `sign x`, consistent with `f(x) = |x|`. -/
def c4df : (Fin 1 → ℚ) → Fin 1 → ℚ := fun v _ => if 0 < v 0 then 1 else -1

/-- The outer iterates of the C4 run: `c4c k = (1/2)·(-1/2)^k`, halving in
magnitude and alternating in sign, so the relative change between
consecutive iterates is `|(-1/2) - 1| = 3/2 > epsilon` forever. -/
def c4c (k : ℕ) : ℚ := 1 / 2 * (-(1 / 2)) ^ k

/-- The ambient `np.random.randn` draws of the C4 run (one per outer
iteration), chosen so line 147 reproduces the radius `3/2·|c4c (k+1)|`. -/
def c4jit : ℕ → Fin 1 → ℚ := fun k _ => -15 * c4c k

/-- The previous outer iterate along the C4 run (`10*x` on entry). -/
def c4prev : ℕ → ℚ
  | 0 => 5
  | k + 1 => c4c k

/-- The outer state of the C4 run after `k` iterations. -/
def c4st (k : ℕ) : OuterSt 1 :=
  ⟨fun _ => c4c k, fun _ => c4prev k, 3 / 2 * (1 / 2) ^ (k + 1), k⟩

/-- The C4 run's starting point. -/
def c4x0 : Fin 1 → ℚ := fun _ => 1 / 2

/-- Whether the outer loop of the C4 run is still running after `k`
iterations: the `k`-fold body iterate neither raised nor made the guard
false. -/
def c4Continues (innerFuel k : ℕ) : Bool :=
  match outerIterE c4f c4df Rat.sqrt c4jit (1 / 2) innerFuel (initOuter c4x0 (3 / 4)) k with
  | .ok st => npGuard st.x st.x_prev (1 / 2)
  | .error _ => false

/-- A bisector run that raises, standing for a `MultiDimensionalBisection`
call whose line-113 assertion fails (reachable in the float program through
rounding; unreachable in exact arithmetic, see `boxAssert_never_fails`). -/
def c5run : (Fin 1 → ℚ) → Except Unit (Fin 1 → ℚ) := fun _ => .error ()

/-- Ambient uniform draws for the C5 counterexample. -/
def c5stream : ℕ → Fin 1 → ℚ := fun _ _ => 1

/-- The C5 witness's incumbent best point. -/
def c5x : Fin 1 → ℚ := fun _ => 1

/-- A degenerate inner-loop exit state (`x_low = x_high`) for the C6
counterexample. -/
def c6s : InnerState 1 :=
  ⟨fun _ => 0, fun _ => ((0 : ℚ) : WithTop ℚ), ((0 : ℚ) : WithTop ℚ), some (fun _ => 0),
    ((0 : ℚ) : WithTop ℚ), fun _ => 0, fun _ => 0⟩

/-- An outer state whose zero radius makes the very first box degenerate,
for the C6 witness. -/
def c6st : OuterSt 1 := ⟨fun _ => 1, fun _ => 10, 0, 0⟩

/-- The objective of the C9 runs: `f(v) = v 0 ^ 2`. -/
def c9f : (Fin 1 → ℚ) → ℚ := fun v => v 0 ^ 2

/-- The bisector as the restart loop calls it at line 161
(`MultiDimensionalBisection(x, 2, 1e-10)`), with concrete fuel, the exact
square root, and the C4 jitter stream for its ambient draws. -/
def c9run : (Fin 1 → ℚ) → Except Unit (Fin 1 → ℚ) := fun x =>
  MultiDimensionalBisection c4f c4df Rat.sqrt c4jit 5 5 x 2 (1 / 10000000000)

/-- First ambient draw stream of the C9 counterexample. -/
def c9s1 : ℕ → Fin 1 → ℚ := fun _ _ => 0

/-- Second ambient draw stream: same configuration, different draws. -/
def c9s2 : ℕ → Fin 1 → ℚ := fun _ _ => 1 / 100

/-- Two streams agreeing on every consumed index, for the C9 witness. -/
def c9d1 : ℕ → Fin 1 → ℚ := fun j _ => if j < 3 then 0 else 1

/-- The second of the agreeing-prefix streams for the C9 witness. -/
def c9d2 : ℕ → Fin 1 → ℚ := fun j _ => if j < 3 then 0 else 2

/-- A starting point with a zero coordinate, for the C10 witness. -/
def c10x : Fin 1 → ℚ := fun _ => 0

/-! ## Helper lemmas -/

/-- If the inner-loop guard is false, the loop body never runs: `innerRun`
returns the state unchanged for any fuel. -/
theorem innerRun_guard_false {n : ℕ} (f : (Fin n → ℚ) → ℚ) (df : (Fin n → ℚ) → Fin n → ℚ)
    (eps : ℚ) (fuel : ℕ) (s : InnerState n) (h : innerGuard eps s = false) :
    innerRun f df eps fuel s = .ok s := by
  cases fuel with
  | zero => rfl
  | succ m => simp [innerRun, h]

/-- The narrowed lower bound never exceeds the current iterate (it is
either the old `x_low i`, assumed below it, or `x i` itself). -/
theorem narrowLow_le_x {n : ℕ} (f : (Fin n → ℚ) → ℚ) (df : (Fin n → ℚ) → Fin n → ℚ)
    (s : InnerState n) (i : Fin n) (h : s.x_low i ≤ s.x i) :
    narrowLow f df s i ≤ s.x i := by
  unfold narrowLow
  split_ifs <;> simp [h]

/-- The narrowed upper bound never lies below the current iterate. -/
theorem x_le_narrowHigh {n : ℕ} (f : (Fin n → ℚ) → ℚ) (df : (Fin n → ℚ) → Fin n → ℚ)
    (s : InnerState n) (i : Fin n) (h : s.x i ≤ s.x_high i) :
    s.x i ≤ narrowHigh f df s i := by
  unfold narrowHigh
  split_ifs <;> simp [h]

/-- One inner-loop pass preserves box containment of the iterate. -/
theorem containment_step {n : ℕ} (f : (Fin n → ℚ) → ℚ) (df : (Fin n → ℚ) → Fin n → ℚ)
    (s : InnerState n) (h : ∀ i, s.x_low i ≤ s.x i ∧ s.x i ≤ s.x_high i) (i : Fin n) :
    (innerBodyCore f df s).x_low i ≤ (innerBodyCore f df s).x i ∧
      (innerBodyCore f df s).x i ≤ (innerBodyCore f df s).x_high i := by
  have ha := narrowLow_le_x f df s i (h i).1
  have hb := x_le_narrowHigh f df s i (h i).2
  constructor <;> simp only [innerBodyCore] <;> linarith

/-- Strict version of `narrowLow_le_x`. -/
theorem narrowLow_lt_x {n : ℕ} (f : (Fin n → ℚ) → ℚ) (df : (Fin n → ℚ) → Fin n → ℚ)
    (s : InnerState n) (i : Fin n) (h : s.x_low i < s.x i) :
    narrowLow f df s i < s.x i ∨ narrowLow f df s i = s.x i := by
  unfold narrowLow
  split_ifs <;> simp [h]

/-- One inner-loop pass keeps the iterate strictly inside the box. -/
theorem strict_containment_step {n : ℕ} (f : (Fin n → ℚ) → ℚ)
    (df : (Fin n → ℚ) → Fin n → ℚ) (s : InnerState n)
    (h : ∀ i, s.x_low i < s.x i ∧ s.x i < s.x_high i) (i : Fin n) :
    (innerBodyCore f df s).x_low i < (innerBodyCore f df s).x i ∧
      (innerBodyCore f df s).x i < (innerBodyCore f df s).x_high i := by
  obtain ⟨h1, h2⟩ := h i
  have ha : narrowLow f df s i ≤ s.x i := narrowLow_le_x f df s i (le_of_lt h1)
  have hb : s.x i ≤ narrowHigh f df s i := x_le_narrowHigh f df s i (le_of_lt h2)
  have hlh : narrowLow f df s i < narrowHigh f df s i := by
    unfold narrowLow narrowHigh
    split_ifs <;> linarith
  constructor <;> simp only [innerBodyCore] <;> linarith

/-- In exact arithmetic the line-113 assertion can never fail when the
trust-region radius is positive: the box stays strictly nondegenerate at
every inner-loop step.  (The assertion is reachable in the float program
only through rounding; this is why the C5 counterexample models the failed
run abstractly.) -/
theorem boxAssert_never_fails {n : ℕ} (f : (Fin n → ℚ) → ℚ)
    (df : (Fin n → ℚ) → Fin n → ℚ) (x0 : Fin n → ℚ) (r : ℚ) (hr : 0 < r) (k : ℕ) :
    boxAssert ((innerBodyCore f df)^[k] (initInner x0 r)) = true := by
  have key : ∀ m i, ((innerBodyCore f df)^[m] (initInner x0 r)).x_low i <
      ((innerBodyCore f df)^[m] (initInner x0 r)).x i ∧
      ((innerBodyCore f df)^[m] (initInner x0 r)).x i <
      ((innerBodyCore f df)^[m] (initInner x0 r)).x_high i := by
    intro m
    induction m with
    | zero =>
      intro i
      simp only [Function.iterate_zero, id_eq, initInner]
      constructor <;> linarith
    | succ m ih =>
      intro i
      rw [Function.iterate_succ_apply']
      exact strict_containment_step f df _ ih i
  rw [boxAssert, decide_eq_true_eq]
  intro i
  have := key k i
  linarith [this.1, this.2]

/-! ## Claims C1, C3, C7, C8 -/

/-- Claim C1 (confirmed): in every inner-loop iteration the box is
narrowed exactly as lines 120-132 state: if the new value `fx` is `≤` the
previous value `fy`, then for each dimension `i` a positive gradient
component sets `x_high[i] = x[i]` (and leaves `x_low[i]` alone), else
`x_low[i] = x[i]` is set (and `x_high[i]` is left alone); if `fx > fy`,
the same is driven by `x[i] > y[i]` instead of the gradient sign.  Stated
about one pass of the inner-loop body `innerBodyCore`. -/
theorem c1_box_narrowing {n : ℕ} (f : (Fin n → ℚ) → ℚ) (df : (Fin n → ℚ) → Fin n → ℚ)
    (s : InnerState n) (i : Fin n) :
    (((f s.x : ℚ) : WithTop ℚ) ≤ s.fy →
      (0 < df s.x i →
        (innerBodyCore f df s).x_high i = s.x i ∧
          (innerBodyCore f df s).x_low i = s.x_low i) ∧
      (¬ 0 < df s.x i →
        (innerBodyCore f df s).x_low i = s.x i ∧
          (innerBodyCore f df s).x_high i = s.x_high i)) ∧
    (¬ ((f s.x : ℚ) : WithTop ℚ) ≤ s.fy →
      (s.y i < ((s.x i : ℚ) : WithTop ℚ) →
        (innerBodyCore f df s).x_high i = s.x i ∧
          (innerBodyCore f df s).x_low i = s.x_low i) ∧
      (¬ s.y i < ((s.x i : ℚ) : WithTop ℚ) →
        (innerBodyCore f df s).x_low i = s.x i ∧
          (innerBodyCore f df s).x_high i = s.x_high i)) := by
  refine ⟨fun h => ⟨fun hd => ?_, fun hd => ?_⟩, fun h => ⟨fun hy => ?_, fun hy => ?_⟩⟩
  · simp [innerBodyCore, narrowLow, narrowHigh, h, hd]
  · simp [innerBodyCore, narrowLow, narrowHigh, h, hd]
  · simp [innerBodyCore, narrowLow, narrowHigh, h, hy]
  · simp [innerBodyCore, narrowLow, narrowHigh, h, hy]

/-- Witness for C1 at the concrete state `c1s`: the non-worsening branch
with a positive gradient component sets the upper bound to the iterate
and leaves the lower bound unchanged. -/
theorem c1_box_narrowing_witness :
    (innerBodyCore wf wdf c1s).x_high 0 = c1s.x 0 ∧
      (innerBodyCore wf wdf c1s).x_low 0 = c1s.x_low 0 :=
  ((c1_box_narrowing wf wdf c1s 0).1 (by decide)).1 (by decide)

/-- Claim C3 (confirmed): at every inner-loop step of an outer iteration
started from point `x0` with trust-region radius `r ≥ 0`, the current
iterate lies inside the current box, `x_low[i] ≤ x[i] ≤ x_high[i]` for all
`i`.  Every radius the program uses is nonnegative: the module passes
`trust_range = 2` (line 161) and every recomputed radius is a Euclidean
distance (line 147). -/
theorem c3_box_containment {n : ℕ} (f : (Fin n → ℚ) → ℚ) (df : (Fin n → ℚ) → Fin n → ℚ)
    (x0 : Fin n → ℚ) (r : ℚ) (hr : 0 ≤ r) (k : ℕ) (i : Fin n) :
    ((innerBodyCore f df)^[k] (initInner x0 r)).x_low i ≤
      ((innerBodyCore f df)^[k] (initInner x0 r)).x i ∧
    ((innerBodyCore f df)^[k] (initInner x0 r)).x i ≤
      ((innerBodyCore f df)^[k] (initInner x0 r)).x_high i := by
  induction k generalizing i with
  | zero =>
    simp only [Function.iterate_zero, id_eq, initInner]
    constructor <;> linarith
  | succ k ih =>
    rw [Function.iterate_succ_apply']
    exact containment_step f df _ (fun j => ih j) i

/-- Witness for C3: containment after two inner-loop steps of a concrete
run with radius `1`. -/
theorem c3_box_containment_witness :
    ((innerBodyCore wf wdf)^[2] (initInner c3x0 1)).x_low 0 ≤
      ((innerBodyCore wf wdf)^[2] (initInner c3x0 1)).x 0 ∧
    ((innerBodyCore wf wdf)^[2] (initInner c3x0 1)).x 0 ≤
      ((innerBodyCore wf wdf)^[2] (initInner c3x0 1)).x_high 0 :=
  c3_box_containment wf wdf c3x0 1 (by norm_num) 2 0

/-- Claim C7 (confirmed): within one outer iteration, the `fx_best` value
held in the inner state is non-increasing across inner-loop steps. -/
theorem c7_fx_best_nonincreasing {n : ℕ} (f : (Fin n → ℚ) → ℚ)
    (df : (Fin n → ℚ) → Fin n → ℚ) (s : InnerState n) (k : ℕ) :
    ((innerBodyCore f df)^[k + 1] s).fx_best ≤ ((innerBodyCore f df)^[k] s).fx_best := by
  rw [Function.iterate_succ_apply']
  set t := (innerBodyCore f df)^[k] s
  by_cases h : ((f t.x : ℚ) : WithTop ℚ) < t.fx_best
  · simp [innerBodyCore, h, le_of_lt h]
  · simp [innerBodyCore, h]

/-- Claim C8 (confirmed): the restart loop's global best value is
non-increasing: after `k+1` completed restarts, `f(x_best)` is at most
its value after `k` restarts (lines 162-163 replace the best point only
when the new value is strictly smaller). -/
theorem c8_global_best_nonincreasing {n : ℕ} (f : (Fin n → ℚ) → ℚ)
    (results : ℕ → Fin n → ℚ) (x0 : Fin n → ℚ) (k : ℕ) :
    f (bestAfter f results x0 (k + 1)) ≤ f (bestAfter f results x0 k) := by
  show f (bestUpdate f (bestAfter f results x0 k) (results k)) ≤ _
  unfold bestUpdate
  split_ifs with h
  · exact le_of_lt h
  · exact le_refl _

/-- `argmin3` on finite (coerced) values computes with the rational
order. -/
theorem argmin3_coe (p q r : ℚ) :
    argmin3 ((p : ℚ) : WithTop ℚ) ((q : ℚ) : WithTop ℚ) ((r : ℚ) : WithTop ℚ) =
      if p ≤ q then (if p ≤ r then 0 else 2) else (if q ≤ r then 1 else 2) := by
  simp [argmin3, WithTop.coe_le_coe]

/-- After at least one inner-loop iteration, `x_best` is assigned and
`fx_best` is its objective value (justifying the hypotheses of
`c2_argmin_selection`; in the source, reading `x_best` before the first
iteration would be a `NameError`). -/
theorem innerBest_spec {n : ℕ} (f : (Fin n → ℚ) → ℚ) (df : (Fin n → ℚ) → Fin n → ℚ)
    (x0 : Fin n → ℚ) (r : ℚ) (k : ℕ) :
    ∃ b, ((innerBodyCore f df)^[k + 1] (initInner x0 r)).x_best = some b ∧
      ((innerBodyCore f df)^[k + 1] (initInner x0 r)).fx_best = ((f b : ℚ) : WithTop ℚ) := by
  induction k with
  | zero =>
    refine ⟨x0, ?_, ?_⟩ <;>
      simp [innerBodyCore, initInner, WithTop.coe_lt_top]
  | succ k ih =>
    obtain ⟨b, hb, hfb⟩ := ih
    rw [Function.iterate_succ_apply']
    set t := (innerBodyCore f df)^[k + 1] (initInner x0 r) with ht
    by_cases h : ((f t.x : ℚ) : WithTop ℚ) < t.fx_best
    · exact ⟨t.x, by simp only [innerBodyCore, if_pos h], by simp only [innerBodyCore, if_pos h]⟩
    · refine ⟨b, ?_, ?_⟩
      · simpa only [innerBodyCore, if_neg h] using hb
      · simpa only [innerBodyCore, if_neg h] using hfb

/-! ## Claim C2 -/

/-- Claim C2 (confirmed): at inner-loop exit the new outer iterate is the
element of `(x_low, x_high, x_best)` whose objective value is minimal,
ties broken by the precedence low, then high, then best (`np.argmin`
returns the first occurrence of the minimum).  `b` is the recorded best
point; `fx_best = f b` holds at every inner-loop exit by
`innerBest_spec`. -/
theorem c2_argmin_selection {n : ℕ} (f : (Fin n → ℚ) → ℚ) (s : InnerState n)
    (b : Fin n → ℚ) (hb : s.x_best = some b)
    (hfb : s.fx_best = ((f b : ℚ) : WithTop ℚ)) :
    (f (selectNext f s) ≤ f s.x_low ∧ f (selectNext f s) ≤ f s.x_high ∧
        f (selectNext f s) ≤ f b) ∧
      (f s.x_low ≤ f s.x_high ∧ f s.x_low ≤ f b → selectNext f s = s.x_low) ∧
      (f s.x_high < f s.x_low ∧ f s.x_high ≤ f b → selectNext f s = s.x_high) ∧
      (f b < f s.x_low ∧ f b < f s.x_high → selectNext f s = b) := by
  have hsel : selectNext f s =
      (if argmin3 ((f s.x_low : ℚ) : WithTop ℚ) ((f s.x_high : ℚ) : WithTop ℚ) s.fx_best = 0
        then s.x_low
        else if argmin3 ((f s.x_low : ℚ) : WithTop ℚ) ((f s.x_high : ℚ) : WithTop ℚ) s.fx_best = 1
          then s.x_high else s.x_best.getD s.x) := rfl
  rcases le_or_lt (f s.x_low) (f s.x_high) with h1 | h1
  · rcases le_or_lt (f s.x_low) (f b) with h2 | h2
    · have ha : selectNext f s = s.x_low := by
        rw [hsel, hfb, argmin3_coe, if_pos h1, if_pos h2]
        simp
      rw [ha]
      exact ⟨⟨le_refl _, h1, h2⟩, fun _ => rfl,
        fun hc => absurd h1 (not_le.mpr hc.1), fun hc => absurd h2 (not_le.mpr hc.1)⟩
    · have ha : selectNext f s = b := by
        rw [hsel, hfb, hb, argmin3_coe, if_pos h1, if_neg (not_le.mpr h2)]
        simp
      rw [ha]
      exact ⟨⟨le_of_lt h2, le_of_lt (lt_of_lt_of_le h2 h1), le_refl _⟩,
        fun hc => absurd hc.2 (not_le.mpr h2),
        fun hc => absurd h1 (not_le.mpr hc.1), fun _ => rfl⟩
  · rcases le_or_lt (f s.x_high) (f b) with h3 | h3
    · have ha : selectNext f s = s.x_high := by
        rw [hsel, hfb, argmin3_coe, if_neg (not_le.mpr h1), if_pos h3]
        simp
      rw [ha]
      exact ⟨⟨le_of_lt h1, le_refl _, h3⟩,
        fun hc => absurd hc.1 (not_le.mpr h1), fun _ => rfl,
        fun hc => absurd h3 (not_le.mpr hc.2)⟩
    · have ha : selectNext f s = b := by
        rw [hsel, hfb, hb, argmin3_coe, if_neg (not_le.mpr h1), if_neg (not_le.mpr h3)]
        simp
      rw [ha]
      exact ⟨⟨le_of_lt (h3.trans h1), le_of_lt h3, le_refl _⟩,
        fun hc => absurd hc.1 (not_le.mpr h1),
        fun hc => absurd hc.2 (not_le.mpr h3), fun _ => rfl⟩

/-- Witness for C2 at the concrete exit state `c2s`: the low endpoint has
the smallest value and is selected. -/
theorem c2_argmin_selection_witness : selectNext wf c2s = c2s.x_low :=
  (c2_argmin_selection wf c2s c2b rfl rfl).2.1 (by decide)

/-! ## Claim C10 -/

/-- `npMax` with `nan` on the right is `nan`. -/
theorem npMax_nan_right (v : NpVal) : npMax v .nan = .nan := by
  cases v <;> rfl

/-- `npMax` with `nan` on the left is `nan`. -/
theorem npMax_nan_left (v : NpVal) : npMax .nan v = .nan := by
  cases v <;> rfl

/-- Any `nan` element makes `np.max` of the array `nan`. -/
theorem npMaxList_nan (l : List NpVal) (h : NpVal.nan ∈ l) : npMaxList l = .nan := by
  induction l with
  | nil => simp at h
  | cons a t ih =>
    rcases List.mem_cons.mp h with h | h
    · rw [← h, npMaxList, List.foldr_cons, npMax_nan_left]
    · rw [npMaxList, List.foldr_cons]
      rw [npMaxList] at ih
      rw [ih h, npMax_nan_right]

/-- A coordinate with `x i = 0` and `x_prev i = 0` makes the outer-loop
guard false: `0/0` is `nan`, `np.max` propagates it, and `nan > epsilon`
is false. -/
theorem npGuard_zero_coord {n : ℕ} (x x_prev : Fin n → ℚ) (eps : ℚ) (i0 : Fin n)
    (hx : x i0 = 0) (hxp : x_prev i0 = 0) : npGuard x x_prev eps = false := by
  have hmem : NpVal.nan ∈ List.ofFn (fun i =>
      npAbs (npSub (npDiv (.fin (x i)) (.fin (x_prev i))) (.fin 1))) := by
    rw [List.mem_ofFn]
    exact ⟨i0, by simp [hx, hxp, npDiv, npSub, npAbs]⟩
  rw [npGuard, npMaxList_nan _ hmem]
  rfl

/-- Claim C10 (confirmed): a starting point with a coordinate exactly zero
is returned unchanged, with no bisection step performed: the entry guard
computes `x/x_prev` with `x_prev = 10*x`, whose zero coordinate yields
`nan`, and `nan > epsilon` is false, so the loop body never runs.  Holds
for every objective, gradient, square root, jitter stream, fuel, radius
and epsilon. -/
theorem c10_zero_coordinate_identity {n : ℕ} (f : (Fin n → ℚ) → ℚ)
    (df : (Fin n → ℚ) → Fin n → ℚ) (sqrtFn : ℚ → ℚ) (jit : ℕ → Fin n → ℚ)
    (outerFuel innerFuel : ℕ) (x : Fin n → ℚ) (r eps : ℚ) (h : ∃ i, x i = 0) :
    MultiDimensionalBisection f df sqrtFn jit outerFuel innerFuel x r eps = .ok x := by
  obtain ⟨i0, hi⟩ := h
  have hg : npGuard x (fun i => 10 * x i) eps = false :=
    npGuard_zero_coord x _ eps i0 hi (by simp [hi])
  cases outerFuel with
  | zero => rfl
  | succ m =>
    show (outerRunE f df sqrtFn jit eps innerFuel (m + 1) (initOuter x r)).map (·.x) = .ok x
    rw [outerRunE]
    simp [initOuter, hg, Except.map]

/-- Witness for C10: the all-zero one-dimensional start is returned
unchanged by a fully concrete instantiation. -/
theorem c10_zero_coordinate_identity_witness :
    MultiDimensionalBisection c4f c4df Rat.sqrt c4jit 3 3 c10x 2 (1 / 2) = .ok c10x :=
  c10_zero_coordinate_identity c4f c4df Rat.sqrt c4jit 3 3 c10x 2 (1 / 2) ⟨0, rfl⟩

/-! ## Claim C5 -/

/-- Amended C5: the restart loop (lines 158-164) contains no exception
handling: when the bisector run of a restart fails, the failure propagates
and terminates the whole search — nothing is caught at the restart
boundary.  (In the exact-arithmetic model the line-113 assertion is
unreachable from the fixed call parameters, `boxAssert_never_fails`; the
failing run below therefore stands for a float-rounding-induced
`AssertionError`, which the real program can produce.) -/
theorem c5_failure_propagates {n : ℕ} (f : (Fin n → ℚ) → ℚ)
    (run : (Fin n → ℚ) → Except Unit (Fin n → ℚ)) (stream : ℕ → Fin n → ℚ)
    (fuel i : ℕ) (xb : Fin n → ℚ) (hth : 1 / 1000 < f xb)
    (hrun : run (stream i) = .error ()) :
    restartAux f run stream (fuel + 1) i xb = .error () := by
  rw [restartAux, if_pos hth, hrun]
  rfl

/-- Witness for `c5_failure_propagates` at a concrete incumbent and a
concrete failing run. -/
theorem c5_failure_propagates_witness :
    restartAux wf c5run c5stream 1 0 c5x = .error () :=
  c5_failure_propagates wf c5run c5stream 0 0 c5x (by norm_num [wf, c5x]) rfl

/-- Counterexample to C5 as stated: a degenerate-box failure inside the
first bisector run makes the whole restart loop return the error — the
failure terminates the overall search instead of being caught and the
restart discarded. -/
theorem c5_counterexample : restartLoop wf c5run c5stream 3 = .error () := by
  rw [restartLoop, restartAux, if_pos (by norm_num [wf, c5stream] : 1 / 1000 < wf (c5stream 0))]
  rfl

/-- Evaluation of the outer-loop guard in one dimension with a nonzero
previous iterate. -/
theorem npGuard_one (a b eps : ℚ) (hb : b ≠ 0) :
    npGuard (n := 1) (fun _ => a) (fun _ => b) eps = decide (eps < |a / b - 1|) := by
  simp [npGuard, List.ofFn_succ, List.ofFn_zero, npDiv, hb, npSub, npAbs, npMaxList,
    npMax, npGtB]

/-! ## Claim C6 -/

/-- On entry of an outer iteration the inner-loop guard is always true
(`y` is the `np.inf` vector, so `d(x, y) = inf > epsilon`), provided the
dimension is positive. -/
theorem innerGuard_init {n : ℕ} (eps : ℚ) (x : Fin n → ℚ) (r : ℚ) (hn : 0 < n) :
    innerGuard eps (initInner x r) = true := by
  have htop : edist2 (initInner x r).x (initInner x r).y = ⊤ := by
    rw [edist2, WithTop.sum_eq_top]
    exact ⟨⟨0, hn⟩, Finset.mem_univ _, rfl⟩
  rw [innerGuard, htop, decide_eq_true_eq]
  exact WithTop.coe_lt_top _

/-- Amended C6: the box invariant is checked — the line-113 assertion, the
check `x_high - x_low > 0` elementwise — at the start of every inner-loop
iteration, before the in-loop evaluations of `f` and `df`, and a violation
aborts the whole `MultiDimensionalBisection` run (not just the inner
loop): the error propagates out of the inner loop, the outer body and the
outer loop.  The post-inner-loop evaluations of `f(x_low)` and `f(x_high)`
(lines 141-142) are, however, not preceded by any check — see
`c6_counterexample`. -/
theorem c6_assert_aborts_whole_run {n : ℕ} (f : (Fin n → ℚ) → ℚ)
    (df : (Fin n → ℚ) → Fin n → ℚ) (sqrtFn : ℚ → ℚ) (jit : ℕ → Fin n → ℚ)
    (eps : ℚ) (innerFuel outerFuel : ℕ) (st : OuterSt n) (hn : 0 < n)
    (hg : npGuard st.x st.x_prev eps = true)
    (hbox : boxAssert (initInner st.x st.r) = false) :
    outerRunE f df sqrtFn jit eps (innerFuel + 1) (outerFuel + 1) st = .error () := by
  have hig : innerGuard eps (initInner st.x st.r) = true := innerGuard_init eps st.x st.r hn
  have hbody : outerBody f df sqrtFn jit eps (innerFuel + 1) st = .error () := by
    rw [outerBody, innerRun, if_pos hig, innerBody, hbox]
    rfl
  rw [outerRunE, if_pos hg, hbody]
  rfl

/-- Witness for `c6_assert_aborts_whole_run`: a radius-zero outer state
whose first box is degenerate makes the whole run return the error. -/
theorem c6_assert_aborts_whole_run_witness :
    outerRunE wf wdf Rat.sqrt c4jit (1 / 2) 3 3 c6st = .error () :=
  c6_assert_aborts_whole_run wf wdf Rat.sqrt c4jit (1 / 2) 2 2 c6st (by norm_num)
    (by rw [show c6st.x = fun _ : Fin 1 => (1 : ℚ) from rfl,
          show c6st.x_prev = fun _ : Fin 1 => (10 : ℚ) from rfl,
          npGuard_one 1 10 (1 / 2) (by norm_num), decide_eq_true_eq]
        norm_num [lt_abs])
    (by rw [boxAssert, decide_eq_false_iff_not]
        intro hall
        have h0 := hall 0
        simp [initInner, c6st] at h0)

/-- Counterexample to C6 as stated: at the degenerate exit state `c6s`
(`x_low = x_high`, so the box invariant `low < high` is violated) the
post-inner-loop selection of lines 141-145 — which evaluates the objective
at `x_low` and at `x_high` — runs with no preceding check and completes
normally, returning a point instead of aborting the run. -/
theorem c6_counterexample :
    boxAssert c6s = false ∧ selectNext wf c6s = c6s.x_low := by
  constructor
  · rw [boxAssert, decide_eq_false_iff_not]
    intro hall
    have h0 := hall 0
    simp [c6s] at h0
  · rfl

/-! ## Claim C9 -/

/-- Amended C9 (first half): the script's result is a deterministic
function of the configuration together with the ambient draws it
consumes — two runs whose ambient streams agree on every consumed index
produce bit-identical `x_best`.  (There is no seed parameter anywhere in
the source: all randomness is ambient `np.random`.) -/
theorem c9_ambient_stream_determinism {n : ℕ} (f : (Fin n → ℚ) → ℚ)
    (run : (Fin n → ℚ) → Except Unit (Fin n → ℚ)) (s1 s2 : ℕ → Fin n → ℚ)
    (fuel : ℕ) (h : ∀ j, j < fuel + 1 → s1 j = s2 j) :
    restartLoop f run s1 fuel = restartLoop f run s2 fuel := by
  have aux : ∀ (fu i : ℕ) (xb : Fin n → ℚ), (∀ j, j < i + fu → s1 j = s2 j) →
      restartAux f run s1 fu i xb = restartAux f run s2 fu i xb := by
    intro fu
    induction fu with
    | zero => intro i xb _; rfl
    | succ fu ih =>
      intro i xb hj
      rw [restartAux, restartAux, hj i (by omega)]
      by_cases hc : 1 / 1000 < f xb
      · rw [if_pos hc, if_pos hc]
        congr 1
        funext x
        exact ih (i + 1) _ (fun j hlt => hj j (by omega))
      · rw [if_neg hc, if_neg hc]
  rw [restartLoop, restartLoop, h 0 (by omega)]
  exact aux fuel 1 _ (fun j hlt => h j (by omega))

/-- Witness for `c9_ambient_stream_determinism`: two streams that agree on
the consumed prefix (but differ later) give identical results. -/
theorem c9_ambient_stream_determinism_witness :
    restartLoop wf c9run c9d1 2 = restartLoop wf c9run c9d2 2 :=
  c9_ambient_stream_determinism wf c9run c9d1 c9d2 2
    (fun j hj => by funext i; simp only [c9d1, c9d2, if_pos hj])

/-- Counterexample to C9 as stated: two runs with identical configuration
(same objective, same bisector with its fixed parameters, same fuel) but
different ambient draws produce different `x_best` — there is no seed that
determines the result, because the randomness is ambient, not injected. -/
theorem c9_counterexample :
    ∃ p q, restartLoop c9f c9run c9s1 2 = .ok p ∧
      restartLoop c9f c9run c9s2 2 = .ok q ∧ p 0 ≠ q 0 := by
  refine ⟨c9s1 0, c9s2 0, ?_, ?_, by norm_num [c9s1, c9s2]⟩
  · rw [restartLoop, restartAux,
      if_neg (by norm_num [c9f, c9s1] : ¬ 1 / 1000 < c9f (c9s1 0))]
  · rw [restartLoop, restartAux,
      if_neg (by norm_num [c9f, c9s2] : ¬ 1 / 1000 < c9f (c9s2 0))]

/-! ## Claim C4

The source's outer loop (line 103) has no iteration counter: its only
exits are the relative-change guard turning false or an uncaught
`AssertionError`.  The following run never takes either exit: in one
dimension, with the objective `f(x) = |x|` and its subgradient `sign x`,
starting point `1/2`, `trust_range = 3/4`, `epsilon = 1/2`, and the
jitter draws `c4jit`, the outer iterates are `c4c k = (1/2)(-1/2)^k`:
every relative change is `|(-1/2) - 1| = 3/2 > 1/2`, so the guard is true
after every iteration, forever. -/

/-- Squared distance in one dimension against a finite previous point. -/
theorem edist2_one (x : Fin 1 → ℚ) (y : Fin 1 → WithTop ℚ) (yv : ℚ)
    (hy : y 0 = ((yv : ℚ) : WithTop ℚ)) :
    edist2 x y = (((x 0 - yv) ^ 2 : ℚ) : WithTop ℚ) := by
  rw [edist2, Fin.sum_univ_one, hy]

/-- Extensionality for the outer state. -/
theorem outerStExt {n : ℕ} {a b : OuterSt n} (hx : a.x = b.x) (hp : a.x_prev = b.x_prev)
    (hr : a.r = b.r) (hj : a.j = b.j) : a = b := by
  cases a
  cases b
  simp_all

/-- Successive C4 iterates are related by the factor `-1/2`. -/
theorem c4c_succ (k : ℕ) : c4c (k + 1) = -(1 / 2) * c4c k := by
  rw [c4c, c4c, pow_succ]
  ring

/-- The C4 iterates never vanish. -/
theorem c4c_ne (k : ℕ) : c4c k ≠ 0 := by
  rw [c4c]
  exact mul_ne_zero (by norm_num) (pow_ne_zero _ (by norm_num))

/-- Magnitude of the C4 iterates. -/
theorem c4c_abs (k : ℕ) : |c4c k| = (1 / 2) ^ (k + 1) := by
  rw [c4c, abs_mul, abs_pow, abs_neg, abs_of_pos (by norm_num : (0 : ℚ) < 1 / 2), pow_succ]
  ring

/-- The C4 iterates stay within `[-1/2, 1/2]`. -/
theorem c4c_le (k : ℕ) : |c4c k| ≤ 1 / 2 := by
  rw [c4c_abs]
  calc ((1 : ℚ) / 2) ^ (k + 1) ≤ (1 / 2) ^ 1 :=
        pow_le_pow_of_le_one (by norm_num) (by norm_num) (by omega)
    _ = 1 / 2 := pow_one _

/-- In the C4 run, one narrowing step always halves the box toward the
descent side: the new `x_high + x_low` equals `c/2`, whichever sign `c`
has. -/
theorem c4_narrow_sum (c : ℚ) (hc : c ≠ 0) (i : Fin 1) :
    narrowHigh c4f c4df (initInner (fun _ => c) (3 / 2 * |c|)) i +
      narrowLow c4f c4df (initInner (fun _ => c) (3 / 2 * |c|)) i = c / 2 := by
  have hfy : ((c4f (initInner (fun _ : Fin 1 => c) (3 / 2 * |c|)).x : ℚ) : WithTop ℚ) ≤
      (initInner (fun _ : Fin 1 => c) (3 / 2 * |c|)).fy := le_top
  rw [narrowHigh, narrowLow, if_pos hfy, if_pos hfy]
  rcases lt_or_gt_of_ne hc with hneg | hpos
  · have hdf : ¬ (0 < c4df (initInner (fun _ : Fin 1 => c) (3 / 2 * |c|)).x i) := by
      show ¬ (0 < if 0 < c then (1 : ℚ) else -1)
      rw [if_neg (not_lt.mpr (le_of_lt hneg))]
      norm_num
    rw [if_neg hdf, if_neg hdf]
    show (c + 3 / 2 * |c|) + c = c / 2
    rw [abs_of_neg hneg]
    ring
  · have hdf : 0 < c4df (initInner (fun _ : Fin 1 => c) (3 / 2 * |c|)).x i := by
      show 0 < if 0 < c then (1 : ℚ) else -1
      rw [if_pos hpos]
      norm_num
    rw [if_pos hdf, if_pos hdf]
    show c + (c - 3 / 2 * |c|) = c / 2
    rw [abs_of_pos hpos]
    ring

/-- In the C4 run the inner loop exits after exactly one iteration: the
first bisection moves the iterate by `3|c|/4 ≤ 1/2 = epsilon`. -/
theorem c4_inner_exit (c : ℚ) (m : ℕ) (hc : c ≠ 0) (hle : |c| ≤ 1 / 2) :
    innerRun c4f c4df (1 / 2) (m + 1) (initInner (fun _ => c) (3 / 2 * |c|)) =
      .ok (innerBodyCore c4f c4df (initInner (fun _ => c) (3 / 2 * |c|))) := by
  have habs : 0 < |c| := abs_pos.mpr hc
  have hassert : boxAssert (initInner (fun _ : Fin 1 => c) (3 / 2 * |c|)) = true := by
    rw [boxAssert, decide_eq_true_eq]
    intro i
    show 0 < (c + 3 / 2 * |c|) - (c - 3 / 2 * |c|)
    linarith
  have hguard1 : innerGuard (1 / 2)
      (innerBodyCore c4f c4df (initInner (fun _ => c) (3 / 2 * |c|))) = false := by
    rw [innerGuard, edist2_one _ _ c rfl, decide_eq_false_iff_not, not_lt,
      WithTop.coe_le_coe]
    have hx0 : (innerBodyCore c4f c4df (initInner (fun _ => c) (3 / 2 * |c|))).x 0 = c / 4 := by
      show (narrowHigh c4f c4df (initInner (fun _ => c) (3 / 2 * |c|)) 0 +
        narrowLow c4f c4df (initInner (fun _ => c) (3 / 2 * |c|)) 0) / 2 = c / 4
      rw [c4_narrow_sum c hc 0]
      ring
    rw [hx0]
    have h1 := (abs_le.mp hle).1
    have h2 := (abs_le.mp hle).2
    nlinarith [mul_nonneg (by linarith : (0 : ℚ) ≤ 1 / 2 - c) (by linarith : (0 : ℚ) ≤ 1 / 2 + c)]
  rw [innerRun, if_pos (innerGuard_init (1 / 2) _ _ (by norm_num)), innerBody,
    if_pos hassert]
  show innerRun c4f c4df (1 / 2) m (innerBodyCore c4f c4df (initInner (fun _ => c) (3 / 2 * |c|))) =
    .ok (innerBodyCore c4f c4df (initInner (fun _ => c) (3 / 2 * |c|)))
  exact innerRun_guard_false _ _ _ _ _ hguard1

/-- C4 exit state, positive iterate: the final lower bound is `-c/2` (the
gradient branch kept `x_low` and set `x_high := x`). -/
theorem c4_low_pos (c : ℚ) (hpos : 0 < c) :
    (innerBodyCore c4f c4df (initInner (fun _ => c) (3 / 2 * |c|))).x_low =
      fun _ : Fin 1 => -(1 / 2) * c := by
  funext i
  simp only [innerBodyCore, narrowLow, initInner, c4f, c4df, le_top, if_true, hpos,
    zero_lt_one]
  rw [abs_of_pos hpos]
  ring

/-- C4 exit state, positive iterate: the final upper bound is `c`. -/
theorem c4_high_pos (c : ℚ) (hpos : 0 < c) :
    (innerBodyCore c4f c4df (initInner (fun _ => c) (3 / 2 * |c|))).x_high =
      fun _ : Fin 1 => c := by
  funext i
  simp only [innerBodyCore, narrowHigh, initInner, c4f, c4df, le_top, if_true, hpos,
    zero_lt_one]

/-- C4 exit state, positive iterate: the best value seen is `c`. -/
theorem c4_fbest_pos (c : ℚ) (hpos : 0 < c) :
    (innerBodyCore c4f c4df (initInner (fun _ => c) (3 / 2 * |c|))).fx_best =
      ((c : ℚ) : WithTop ℚ) := by
  simp only [innerBodyCore, initInner, c4f, WithTop.coe_lt_top, if_true]
  rw [abs_of_pos hpos]

/-- C4 exit state, negative iterate: the final lower bound is `c` (the
gradient branch set `x_low := x`). -/
theorem c4_low_neg (c : ℚ) (hneg : c < 0) :
    (innerBodyCore c4f c4df (initInner (fun _ => c) (3 / 2 * |c|))).x_low =
      fun _ : Fin 1 => c := by
  funext i
  simp only [innerBodyCore, narrowLow, initInner, c4f, c4df, le_top, if_true,
    if_neg (not_lt.mpr (le_of_lt hneg)), if_neg (show ¬ ((0 : ℚ) < -1) by norm_num)]

/-- C4 exit state, negative iterate: the final upper bound is `-c/2`. -/
theorem c4_high_neg (c : ℚ) (hneg : c < 0) :
    (innerBodyCore c4f c4df (initInner (fun _ => c) (3 / 2 * |c|))).x_high =
      fun _ : Fin 1 => -(1 / 2) * c := by
  funext i
  simp only [innerBodyCore, narrowHigh, initInner, c4f, c4df, le_top, if_true,
    if_neg (not_lt.mpr (le_of_lt hneg)), if_neg (show ¬ ((0 : ℚ) < -1) by norm_num)]
  rw [abs_of_neg hneg]
  ring

/-- C4 exit state, negative iterate: the best value seen is `-c = |c|`. -/
theorem c4_fbest_neg (c : ℚ) (hneg : c < 0) :
    (innerBodyCore c4f c4df (initInner (fun _ => c) (3 / 2 * |c|))).fx_best =
      ((-c : ℚ) : WithTop ℚ) := by
  simp only [innerBodyCore, initInner, c4f, WithTop.coe_lt_top, if_true]
  rw [abs_of_neg hneg]

/-- In the C4 run the post-inner selection always picks the endpoint
`-c/2`: the low endpoint when `c > 0` (it has the smallest value `c/2`),
the high endpoint when `c < 0`. -/
theorem c4_select (c : ℚ) (hc : c ≠ 0) :
    selectNext c4f (innerBodyCore c4f c4df (initInner (fun _ => c) (3 / 2 * |c|))) =
      fun _ : Fin 1 => -(1 / 2) * c := by
  have hsel : selectNext c4f (innerBodyCore c4f c4df (initInner (fun _ => c) (3 / 2 * |c|))) =
      (if argmin3
          ((c4f (innerBodyCore c4f c4df (initInner (fun _ => c) (3 / 2 * |c|))).x_low : ℚ) : WithTop ℚ)
          ((c4f (innerBodyCore c4f c4df (initInner (fun _ => c) (3 / 2 * |c|))).x_high : ℚ) : WithTop ℚ)
          (innerBodyCore c4f c4df (initInner (fun _ => c) (3 / 2 * |c|))).fx_best = 0
        then (innerBodyCore c4f c4df (initInner (fun _ => c) (3 / 2 * |c|))).x_low
        else if argmin3
          ((c4f (innerBodyCore c4f c4df (initInner (fun _ => c) (3 / 2 * |c|))).x_low : ℚ) : WithTop ℚ)
          ((c4f (innerBodyCore c4f c4df (initInner (fun _ => c) (3 / 2 * |c|))).x_high : ℚ) : WithTop ℚ)
          (innerBodyCore c4f c4df (initInner (fun _ => c) (3 / 2 * |c|))).fx_best = 1
          then (innerBodyCore c4f c4df (initInner (fun _ => c) (3 / 2 * |c|))).x_high
          else ((innerBodyCore c4f c4df (initInner (fun _ => c) (3 / 2 * |c|))).x_best).getD
            (innerBodyCore c4f c4df (initInner (fun _ => c) (3 / 2 * |c|))).x) := rfl
  rcases lt_or_gt_of_ne hc with hneg | hpos
  · rw [hsel, c4_low_neg c hneg, c4_high_neg c hneg, c4_fbest_neg c hneg]
    have h1 : c4f (fun _ : Fin 1 => c) = -c := abs_of_neg hneg
    have h2 : c4f (fun _ : Fin 1 => -(1 / 2) * c) = -(1 / 2) * c :=
      abs_of_pos (by linarith)
    rw [h1, h2, argmin3_coe, if_neg (not_le.mpr (by linarith : -(1 / 2) * c < -c)),
      if_pos (by linarith : -(1 / 2) * c ≤ -c)]
    simp
  · rw [hsel, c4_low_pos c hpos, c4_high_pos c hpos, c4_fbest_pos c hpos]
    have h1 : c4f (fun _ : Fin 1 => -(1 / 2) * c) = 1 / 2 * c := by
      show |(-(1 / 2) * c)| = 1 / 2 * c
      rw [abs_of_neg (by linarith : -(1 / 2) * c < 0)]
      ring
    have h2 : c4f (fun _ : Fin 1 => c) = c := abs_of_pos hpos
    rw [h1, h2, argmin3_coe, if_pos (by linarith : 1 / 2 * c ≤ c),
      if_pos (by linarith : 1 / 2 * c ≤ c)]
    simp

/-- In the C4 run the recomputed trust-region radius is `(3/4)|c|`: the
jitter draw is chosen so the perturbed previous point is `c/4`, and the
radius is the exact distance `|-c/2 - c/4|`. -/
theorem c4_radius (c : ℚ) (j : ℕ) (hjit : c4jit j = fun _ => -15 * c) :
    nextRadius Rat.sqrt (1 / 2) (fun _ : Fin 1 => -(1 / 2) * c) (fun _ => c) (c4jit j) =
      3 / 4 * |c| := by
  rw [nextRadius, hjit]
  simp only [Fin.sum_univ_one]
  have h34 : Rat.sqrt ((-(3 / 4 * c)) ^ 2) = 3 / 4 * |c| := by
    rw [pow_two, Rat.sqrt_eq, abs_neg, abs_mul,
      abs_of_pos (by norm_num : (0 : ℚ) < 3 / 4)]
  rw [← h34]
  congr 1
  ring

/-- One outer iteration of the C4 run: from iterate `c` with radius
`(3/2)|c|` and the matching jitter draw, the body neither raises nor
terminates and produces iterate `-c/2` with radius `(3/4)|c|`. -/
theorem c4_step (c : ℚ) (xp : Fin 1 → ℚ) (j m : ℕ) (hc : c ≠ 0) (hle : |c| ≤ 1 / 2)
    (hjit : c4jit j = fun _ => -15 * c) :
    outerBody c4f c4df Rat.sqrt c4jit (1 / 2) (m + 1)
        ⟨fun _ => c, xp, 3 / 2 * |c|, j⟩ =
      .ok ⟨fun _ => -(1 / 2) * c, fun _ => c, 3 / 4 * |c|, j + 1⟩ := by
  rw [outerBody]
  dsimp only
  rw [c4_inner_exit c m hc hle]
  dsimp only [Except.map]
  congr 1
  refine outerStExt ?_ rfl ?_ rfl
  · exact c4_select c hc
  · show nextRadius Rat.sqrt (1 / 2)
      (selectNext c4f (innerBodyCore c4f c4df (initInner (fun _ => c) (3 / 2 * |c|))))
      (fun _ => c) (c4jit j) = 3 / 4 * |c|
    rw [c4_select c hc]
    exact c4_radius c j hjit

/-- The full C4 trace: after `k` outer-loop iterations the state is
exactly `c4st k`, for every inner fuel `m + 1` (the inner loop always
exits after one iteration on this run). -/
theorem c4_trace (m k : ℕ) :
    outerIterE c4f c4df Rat.sqrt c4jit (1 / 2) (m + 1) (initOuter c4x0 (3 / 4)) k =
      .ok (c4st k) := by
  induction k with
  | zero =>
    show Except.ok (initOuter c4x0 (3 / 4)) = .ok (c4st 0)
    congr 1
    refine outerStExt ?_ ?_ ?_ rfl
    · funext i
      show (1 : ℚ) / 2 = c4c 0
      rw [c4c]
      norm_num
    · funext i
      show (10 : ℚ) * (1 / 2) = c4prev 0
      norm_num [c4prev]
    · show (3 : ℚ) / 4 = 3 / 2 * (1 / 2) ^ (0 + 1)
      norm_num
  | succ k ih =>
    rw [outerIterE, ih]
    show outerBody c4f c4df Rat.sqrt c4jit (1 / 2) (m + 1) (c4st k) = .ok (c4st (k + 1))
    have hst : c4st k = (⟨fun _ => c4c k, fun _ => c4prev k, 3 / 2 * |c4c k|, k⟩ : OuterSt 1) := by
      rw [c4st]
      refine outerStExt rfl rfl ?_ rfl
      show 3 / 2 * (1 / 2) ^ (k + 1) = 3 / 2 * |c4c k|
      rw [c4c_abs]
    rw [hst, c4_step (c4c k) _ k m (c4c_ne k) (c4c_le k) rfl]
    congr 1
    refine outerStExt ?_ ?_ ?_ rfl
    · funext i
      show -(1 / 2) * c4c k = c4c (k + 1)
      rw [c4c_succ]
    · funext i
      show c4c k = c4prev (k + 1)
      rfl
    · show 3 / 4 * |c4c k| = 3 / 2 * (1 / 2) ^ (k + 1 + 1)
      rw [c4c_abs, pow_succ]
      ring

/-- Along the C4 trace the outer-loop guard is true after every
iteration: every relative change is `9/10` (entry) or `3/2`, both above
`epsilon = 1/2`. -/
theorem c4_guard (k : ℕ) :
    npGuard (c4st k).x (c4st k).x_prev (1 / 2) = true := by
  cases k with
  | zero =>
    show npGuard (fun _ : Fin 1 => c4c 0) (fun _ : Fin 1 => c4prev 0) (1 / 2) = true
    rw [show c4c 0 = 1 / 2 by rw [c4c]; norm_num, show c4prev 0 = 5 from rfl,
      npGuard_one _ _ _ (by norm_num), decide_eq_true_eq]
    norm_num [lt_abs]
  | succ k =>
    show npGuard (fun _ : Fin 1 => c4c (k + 1)) (fun _ : Fin 1 => c4c k) (1 / 2) = true
    rw [npGuard_one _ _ _ (c4c_ne k), decide_eq_true_eq]
    have hdiv : c4c (k + 1) / c4c k = -(1 / 2) := by
      rw [c4c_succ]
      exact mul_div_cancel_right₀ _ (c4c_ne k)
    rw [hdiv]
    norm_num [lt_abs]

/-- Amended C4: the outer loop of `MultiDimensionalBisection` has no
iteration cap — the source has no `max_outer_iterations` parameter, the
`while` of line 103 is guarded only by the relative change, and line 153
returns the bare point, with no converged flag.  On the concrete input
(`f(x) = |x|` with subgradient `sign`, start `1/2`, `trust_range = 3/4`,
`epsilon = 1/2`, jitter draws `c4jit`), after every `k` iterations the
body has neither raised nor converged, and the guard still holds, so the
loop runs forever: no iteration bound exists. -/
theorem c4_outer_loop_unbounded (m k : ℕ) :
    outerIterE c4f c4df Rat.sqrt c4jit (1 / 2) (m + 1) (initOuter c4x0 (3 / 4)) k =
      .ok (c4st k) ∧ npGuard (c4st k).x (c4st k).x_prev (1 / 2) = true :=
  ⟨c4_trace m k, c4_guard k⟩

/-- The C4 run is still running after any number of iterations. -/
theorem c4Continues_true (ifu k : ℕ) : c4Continues (ifu + 1) k = true := by
  rw [c4Continues, c4_trace ifu k]
  exact c4_guard k

/-- Counterexample to C4 as stated: on the concrete C4 input the outer
loop is still running after `k` iterations for every `k` — `c4Continues 1`
is the constant-true function — so the loop does not execute "at most
`max_outer_iterations` iterations" for any bound, and there is no
iteration-capped exit that could return a best point with a not-converged
flag. -/
theorem c4_counterexample : c4Continues 1 = fun _ => true := by
  funext k
  exact c4Continues_true 0 k

end MDB2
